import Mathlib

/-!
Shallow embedding of `kaiten_migration.py` (the Kaiten card-migration tool)
and proofs about it.

The embedding models:
  * `prepare_properties_for_migration` — the custom-field value preparation
    (the only "FieldMapper" code that exists in the source);
  * the card-loading request made in `main` (no pagination in the source);
  * `migrate_cards` and the four sub-resource migration blocks (tags,
    comments, files, checklists), as trace-producing functions over an
    environment that records which network operations succeed or fail.

Python `dict`s are modelled as association lists in insertion order, JSON
values as the inductive `JVal`, and exceptions as `Except Unit`.
-/

/-- A JSON value as manipulated by the Python source. -/
inductive JVal where
  | null : JVal
  | bool : Bool → JVal
  | num : Int → JVal
  | str : String → JVal
  | arr : List JVal → JVal
  | obj : List (String × JVal) → JVal

/-- `Except.isOk` as a Bool, for stating hypotheses about fallible steps. -/
def exceptOk {α : Type} : Except Unit α → Bool
  | .ok _ => true
  | .error _ => false

/-- Whether `pat` occurs as a contiguous substring of `s` (scan over
suffixes). -/
def occursIn (pat : List Char) : List Char → Bool
  | [] => decide (pat <+: ([] : List Char))
  | c :: rest => decide (pat <+: (c :: rest)) || occursIn pat rest

/-- Whether a list of JSON values has the string "id" among its elements
(Python `'id' in xs` for a list `xs`). -/
def listHasStrId : List JVal → Bool
  | [] => false
  | .str s :: rest => s = "id" || listHasStrId rest
  | _ :: rest => listHasStrId rest

/-- Python `'id' in item`: key membership for a dict, substring test for a
string, element membership for a list, and a `TypeError` otherwise. -/
def pyHasId : JVal → Except Unit Bool
  | .obj kvs => .ok (kvs.any (fun kv => kv.1 = "id"))
  | .str s => .ok (occursIn "id".toList s.toList)
  | .arr xs => .ok (listHasStrId xs)
  | _ => .error ()

/-- Python `item['id']`: dict lookup (KeyError when absent), `TypeError`
for any non-dict value. -/
def pyGetId : JVal → Except Unit JVal
  | .obj kvs =>
      match kvs.find? (fun kv => kv.1 = "id") with
      | some kv => .ok kv.2
      | none => .error ()
  | _ => .error ()

/-- The list comprehension `[item['id'] for item in value if 'id' in item]`,
evaluated left to right with Python's exception behaviour. -/
def extractIds : List JVal → Except Unit (List JVal)
  | [] => .ok []
  | item :: rest =>
      match pyHasId item with
      | .error e => .error e
      | .ok false => extractIds rest
      | .ok true =>
          match pyGetId item with
          | .error e => .error e
          | .ok v =>
              match extractIds rest with
              | .error e => .error e
              | .ok tail => .ok (v :: tail)

/-- The branch test on one property value in
`prepare_properties_for_migration`:
`isinstance(value, list) and value and isinstance(value[0], dict) and 'id' in value[0]`. -/
def branchTaken (value : JVal) : Bool :=
  match value with
  | .arr (.obj kvs :: _) => kvs.any (fun kv => kv.1 = "id")
  | _ => false

/-- Transformation of a single property value inside
`prepare_properties_for_migration`. -/
def transformValue (value : JVal) : Except Unit JVal :=
  match value with
  | .arr (.obj kvs :: rest) =>
      if kvs.any (fun kv => kv.1 = "id") then
        (extractIds (.obj kvs :: rest)).map .arr
      else .ok value
  | v => .ok v

/-- The loop over `source_properties.items()` building `prepared_props`. -/
def prepareEntries : List (String × JVal) → Except Unit (List (String × JVal))
  | [] => .ok []
  | (k, v) :: rest =>
      match transformValue v with
      | .error e => .error e
      | .ok v' =>
          match prepareEntries rest with
          | .error e => .error e
          | .ok rest' => .ok ((k, v') :: rest')

/-- Embedding of `prepare_properties_for_migration` (kaiten_migration.py,
lines 216–235): `None`/empty input gives `None`; otherwise each value is
transformed by `transformValue` and keys are kept as they are. -/
def prepare_properties_for_migration :
    Option (List (String × JVal)) → Except Unit (Option (List (String × JVal)))
  | none => .ok none
  | some [] => .ok none
  | some (p :: rest) =>
      match prepareEntries (p :: rest) with
      | .error e => .error e
      | .ok prepared => .ok (some prepared)

example : prepare_properties_for_migration none = .ok none := rfl

example : prepare_properties_for_migration
    (some [("id_5", .arr [.obj [("id", .num 1), ("name", .str "A")],
                          .obj [("id", .num 2)]])])
    = .ok (some [("id_5", .arr [.num 1, .num 2])]) := rfl

/-! ## Data attached to a source card -/

/-- A source tag (`tag["name"]`, `tag["color"]`). -/
structure Tag where
  name : String
  color : String
deriving DecidableEq

/-- A source comment: `comment.get('author', {}).get('full_name', 'Unknown')`
is modelled by an optional author name; `created` is the creation timestamp
carried by the source payload (the code never reads it). -/
structure Comment where
  authorName : Option String
  text : String
  created : String
deriving DecidableEq

/-- A source file attachment (`file['url']`, `file['name']`). -/
structure FileInfo where
  url : String
  name : String
deriving DecidableEq

/-- One checklist item (`item['text']`, `item.get('checked', False)`). -/
structure ChecklistItem where
  text : String
  checked : Bool
deriving DecidableEq

/-- A source checklist (`checklist['name']`, `checklist.get('items', [])`). -/
structure Checklist where
  name : String
  items : List ChecklistItem
deriving DecidableEq

/-- A source card as cached by the UI and consumed by `migrate_cards`. -/
structure Card where
  id : Nat
  title : String
  tags : Option (List Tag)
  properties : Option (List (String × JVal))

/-- Python truthiness of `card.get('tags')`: present and non-empty. -/
def truthyTags : Option (List Tag) → Bool
  | some (_ :: _) => true
  | _ => false

/-! ## Network events and per-card environment -/

/-- One observable API interaction performed during the migration of a card. -/
inductive Event where
  | createCard (title : String)
  | fetchTags (cardId : Nat)
  | createTag (targetCardId : Nat) (name color : String)
  | fetchComments (cardId : Nat)
  | createComment (targetCardId : Nat) (text : String)
  | fetchFiles (cardId : Nat)
  | downloadFile (url name : String)
  | uploadFile (targetCardId : Nat) (name : String)
  | removeTemp (name : String)
  | fetchCard (cardId : Nat)
  | createChecklist (targetCardId : Nat) (name : String)
  | createItem (targetCardId checklistId : Nat) (text : String) (checked : Bool)
deriving DecidableEq

/-- The behaviour of the two Kaiten instances while one card is migrated:
which requests succeed, what the source returns, and the ids minted by the
target. Per-item outcomes are indexed by position in the fetched list. -/
structure CardEnv where
  createOk : Bool
  newCardId : Nat
  tagsFetch : Except Unit (List Tag)
  tagCreateOk : Nat → Bool
  commentsFetch : Except Unit (List Comment)
  commentCreateOk : Nat → Bool
  filesFetch : Except Unit (List FileInfo)
  fileDownloadOk : Nat → Bool
  fileUploadOk : Nat → Bool
  checklistsFetch : Except Unit (List Checklist)
  checklistCreateOk : Nat → Bool
  checklistNewId : Nat → Nat
  itemCreateOk : Nat → Nat → Bool

/-! ## Sub-resource migration loops -/

/-- The comment text built in `migrate_cards`:
`f"**Комментарий от {comment.get('author', {}).get('full_name', 'Unknown')}**\n{comment['text']}"`. -/
def commentMigrationText (c : Comment) : String :=
  "**Комментарий от " ++ c.authorName.getD "Unknown" ++ "**\n" ++ c.text

/-- The `for comment in source_comments` loop. There is no per-item handler:
the first failing creation raises out of the loop (second component `false`),
so later comments are not attempted. -/
def commentLoop (targetCardId : Nat) (ok : Nat → Bool) : Nat → List Comment → List Event × Bool
  | _, [] => ([], true)
  | i, c :: rest =>
      if ok i then
        let (evs, s) := commentLoop targetCardId ok (i + 1) rest
        (.createComment targetCardId (commentMigrationText c) :: evs, s)
      else ([.createComment targetCardId (commentMigrationText c)], false)

/-- The `for tag in source_tags` loop; like the comment loop it has no
per-item handler. -/
def tagLoop (targetCardId : Nat) (ok : Nat → Bool) : Nat → List Tag → List Event × Bool
  | _, [] => ([], true)
  | i, t :: rest =>
      if ok i then
        let (evs, s) := tagLoop targetCardId ok (i + 1) rest
        (.createTag targetCardId t.name t.color :: evs, s)
      else ([.createTag targetCardId t.name t.color], false)

/-- The `for file in files` loop of `migrate_card_files`: each file has its
own `try/except ... continue`, so every file is attempted. The second
component lists temporary files that were written but never deleted:
`os.remove` runs only after a successful upload. -/
def fileLoop (targetCardId : Nat) (dOk uOk : Nat → Bool) : Nat → List FileInfo → List Event × List String
  | _, [] => ([], [])
  | i, f :: rest =>
      let (evs, tmp) := fileLoop targetCardId dOk uOk (i + 1) rest
      if dOk i then
        if uOk i then
          (.downloadFile f.url f.name :: .uploadFile targetCardId f.name ::
             .removeTemp f.name :: evs, tmp)
        else
          (.downloadFile f.url f.name :: .uploadFile targetCardId f.name :: evs,
             f.name :: tmp)
      else (.downloadFile f.url f.name :: evs, tmp)

/-- The item loop of one checklist; no per-item handler, so a failing item
aborts the remaining items of that checklist (the exception is caught by the
per-checklist handler). -/
def itemLoop (targetCardId checklistId : Nat) (ok : Nat → Bool) : Nat → List ChecklistItem → List Event
  | _, [] => []
  | j, it :: rest =>
      if ok j then
        .createItem targetCardId checklistId it.text it.checked ::
          itemLoop targetCardId checklistId ok (j + 1) rest
      else [.createItem targetCardId checklistId it.text it.checked]

/-- The `for checklist in checklists` loop of `migrate_card_checklists`:
each checklist has its own `try/except ... continue`. -/
def checklistLoop (targetCardId : Nat) (clOk : Nat → Bool) (newId : Nat → Nat)
    (itOk : Nat → Nat → Bool) : Nat → List Checklist → List Event
  | _, [] => []
  | i, cl :: rest =>
      if clOk i then
        .createChecklist targetCardId cl.name ::
          (itemLoop targetCardId (newId i) (itOk i) 0 cl.items ++
            checklistLoop targetCardId clOk newId itOk (i + 1) rest)
      else
        .createChecklist targetCardId cl.name ::
          checklistLoop targetCardId clOk newId itOk (i + 1) rest

/-! ## Per-category migrators -/

/-- The tag block of `migrate_cards` (lines 281–299): guarded by
`if new_card and card.get('tags')`; the whole block sits in one
`try/except`. -/
def migrateTags (card : Card) (targetCardId : Nat) (env : CardEnv) : List Event :=
  if truthyTags card.tags then
    match env.tagsFetch with
    | .error _ => [.fetchTags card.id]
    | .ok tags => .fetchTags card.id :: (tagLoop targetCardId env.tagCreateOk 0 tags).1
  else []

/-- The comment block of `migrate_cards` (lines 301–312): one `try/except`
around the fetch and the whole loop. -/
def migrateComments (cardId targetCardId : Nat) (env : CardEnv) : List Event :=
  match env.commentsFetch with
  | .error _ => [.fetchComments cardId]
  | .ok cs => .fetchComments cardId :: (commentLoop targetCardId env.commentCreateOk 0 cs).1

/-- Embedding of `KaitenMigration.migrate_card_files` (lines 137–158):
fetch the file list, then run the per-file loop. Returns the events and the
temporary files left behind in `temp_dir`. -/
def migrate_card_files (cardId targetCardId : Nat) (env : CardEnv) : List Event × List String :=
  match env.filesFetch with
  | .error _ => ([.fetchFiles cardId], [])
  | .ok fs =>
      let (evs, tmp) := fileLoop targetCardId env.fileDownloadOk env.fileUploadOk 0 fs
      (.fetchFiles cardId :: evs, tmp)

/-- Embedding of `KaitenMigration.migrate_card_checklists` (lines 160–185):
the checklists come from fetching the whole source card. -/
def migrate_card_checklists (cardId targetCardId : Nat) (env : CardEnv) : List Event :=
  match env.checklistsFetch with
  | .error _ => [.fetchCard cardId]
  | .ok cls =>
      .fetchCard cardId ::
        checklistLoop targetCardId env.checklistCreateOk env.checklistNewId
          env.itemCreateOk 0 cls

/-! ## Per-card orchestration and the run loop -/

/-- Result of processing one card inside the `for` loop of
`migrate_cards`. -/
structure CardOutcome where
  events : List Event
  created : Bool
  tempLeft : List String

/-- The body of the `for i, (card_title, card)` loop of `migrate_cards`
(lines 246–333). Property preparation runs before creation and its
exception is caught by the per-card handler; on creation failure nothing
else runs; on success the four category blocks run in order (tags,
comments, files, checklists), each failure-isolated. -/
def migrateOneCard (card : Card) (env : CardEnv) : CardOutcome :=
  match prepare_properties_for_migration card.properties with
  | .error _ => ⟨[], false, []⟩
  | .ok _ =>
      if env.createOk then
        ⟨.createCard card.title ::
           (migrateTags card env.newCardId env ++
             migrateComments card.id env.newCardId env ++
             (migrate_card_files card.id env.newCardId env).1 ++
             migrate_card_checklists card.id env.newCardId env),
         true, (migrate_card_files card.id env.newCardId env).2⟩
      else ⟨[.createCard card.title], false, []⟩

/-- The run loop of `migrate_cards`: accumulates the success count, the
progress-bar updates `(i + 1) / total_cards` (emitted only on the success
path, after `success_count += 1`), and all events. -/
def runCards (envs : Nat → CardEnv) (total : Nat) : Nat → List Card → Nat × List ℚ × List Event
  | _, [] => (0, [], [])
  | i, c :: rest =>
      let out := migrateOneCard c (envs i)
      let r := runCards envs total (i + 1) rest
      if out.created then
        (r.1 + 1, ((i + 1 : ℚ) / (total : ℚ)) :: r.2.1, out.events ++ r.2.2)
      else (r.1, r.2.1, out.events ++ r.2.2)

/-- Embedding of `migrate_cards` (lines 239–340): returns
`(success_count, total_cards)` together with the progress updates and the
event trace. -/
def migrate_cards (cards : List Card) (envs : Nat → CardEnv) :
    (Nat × Nat) × List ℚ × List Event :=
  let r := runCards envs cards.length 0 cards
  ((r.1, cards.length), r.2.1, r.2.2)

/-- The number of cards whose creation request succeeds (the environment's
`createOk` at the card's position); reads nothing about sub-resources. -/
def countCreated (envs : Nat → CardEnv) : Nat → List Card → Nat
  | _, [] => 0
  | i, _ :: rest =>
      (if (envs i).createOk then 1 else 0) + countCreated envs (i + 1) rest

/-! ## Card loading in `main` -/

/-- The query parameters sent by `main` when listing cards
(lines 436–446): `space_id`, `board_id`, `column_id`; the request carries
no `limit` and no `offset`. -/
structure CardsRequest where
  space_id : Nat
  board_id : Nat
  column_id : Nat
  limit : Option Nat
  offset : Option Nat
deriving DecidableEq

/-- Embedding of the card-loading step of `main`: a single
`make_source_request("cards", params=...)` call; the full response is used
as-is. Returns the cards and the list of requests issued. -/
def loadCards (respond : CardsRequest → List Nat) (spaceId boardId columnId : Nat) :
    List Nat × List CardsRequest :=
  let req : CardsRequest := ⟨spaceId, boardId, columnId, none, none⟩
  (respond req, [req])

/-! ## Helper predicates over JSON values -/

/-- Whether a JSON value is a dict (`isinstance(item, dict)`). -/
def isObjV : JVal → Bool
  | .obj _ => true
  | _ => false

/-- Whether a JSON value is a dict containing the key "id". -/
def objWithId : JVal → Bool
  | .obj kvs => kvs.any (fun kv => kv.1 = "id")
  | _ => false

/-- The "id" entry of a dict, when there is one (the value `item['id']`
reads when it succeeds). -/
def getIdv : JVal → Option JVal
  | .obj kvs => (kvs.find? (fun kv => kv.1 = "id")).map Prod.snd
  | _ => none

/-! ## Lemmas about the property preparation -/

theorem prepareEntries_keys : ∀ xs ys, prepareEntries xs = .ok ys →
    ys.map Prod.fst = xs.map Prod.fst := by
  intro xs
  induction xs with
  | nil =>
      intro ys h
      simp only [prepareEntries] at h
      cases h
      rfl
  | cons kv rest ih =>
      intro ys h
      obtain ⟨k, v⟩ := kv
      simp only [prepareEntries] at h
      cases h1 : transformValue v with
      | error e => rw [h1] at h; cases h
      | ok v' =>
          rw [h1] at h
          cases h2 : prepareEntries rest with
          | error e => rw [h2] at h; cases h
          | ok rest' =>
              rw [h2] at h
              cases h
              simp only [List.map_cons]
              rw [ih rest' h2]

theorem transformValue_of_not_branch (v : JVal) (h : branchTaken v = false) :
    transformValue v = .ok v := by
  cases v with
  | arr elems =>
      cases elems with
      | nil => rfl
      | cons x rest =>
          cases x with
          | obj kvs =>
              simp only [branchTaken] at h
              simp only [transformValue, h]
              rfl
          | null => rfl
          | bool b => rfl
          | num n => rfl
          | str s => rfl
          | arr l => rfl
  | null => rfl
  | bool b => rfl
  | num n => rfl
  | str s => rfl
  | obj kvs => rfl

theorem prepareEntries_of_stable : ∀ ys, (∀ kv ∈ ys, branchTaken kv.2 = false) →
    prepareEntries ys = .ok ys := by
  intro ys
  induction ys with
  | nil => intro _; rfl
  | cons kv rest ih =>
      intro h
      obtain ⟨k, v⟩ := kv
      have hv : branchTaken v = false := h (k, v) (List.mem_cons_self _ _)
      have hrest := ih (fun kv hm => h kv (List.mem_cons_of_mem _ hm))
      simp only [prepareEntries, transformValue_of_not_branch v hv, hrest]

theorem extractIds_of_objs : ∀ l, (∀ x ∈ l, isObjV x = true) →
    extractIds l = .ok (l.filterMap getIdv) := by
  intro l
  induction l with
  | nil => intro _; rfl
  | cons x rest ih =>
      intro h
      have hx : isObjV x = true := h x (List.mem_cons_self _ _)
      have hrest := ih (fun y hm => h y (List.mem_cons_of_mem _ hm))
      cases x with
      | obj kvs =>
          cases hid : kvs.any (fun kv => kv.1 = "id") with
          | false =>
              have hf : kvs.find? (fun kv => kv.1 = "id") = none := by
                rw [List.find?_eq_none]
                intro kv hm
                have := List.any_eq_false.mp hid kv hm
                simpa using this
              simp [extractIds, pyHasId, hid, List.filterMap_cons, getIdv, hf, hrest]
          | true =>
              obtain ⟨kv0, hm0, hp0⟩ := List.any_eq_true.mp hid
              cases hf : kvs.find? (fun kv => kv.1 = "id") with
              | none =>
                  exfalso
                  exact List.find?_eq_none.mp hf kv0 hm0 hp0
              | some kv1 =>
                  simp [extractIds, pyHasId, hid, pyGetId, hf, hrest,
                    List.filterMap_cons, getIdv]
      | null => simp [isObjV] at hx
      | bool b => simp [isObjV] at hx
      | num n => simp [isObjV] at hx
      | str s => simp [isObjV] at hx
      | arr l2 => simp [isObjV] at hx

/-! ## Claim C1 — key handling of the property preparation -/

/-- The string key under which a custom field with numeric id `n` appears in
a card's `properties` map. -/
def fieldKeyOf (n : Nat) : String := "id_" ++ toString n

/-- Follows the spec's words (§4.1 FieldMapper), for comparison with the
code: resolve each source property key to the source field's display name,
resolve that name to the target board's field id, emit the transformed value
under the target field key, and drop entries unresolved on either side. -/
def claimedFieldMapper (sourceDefs targetDefs : List (Nat × String))
    (props : List (String × JVal)) : List (String × JVal) :=
  props.filterMap (fun kv =>
    match sourceDefs.find? (fun d => fieldKeyOf d.1 = kv.1) with
    | none => none
    | some sd =>
        match targetDefs.find? (fun d => d.2 = sd.2) with
        | none => none
        | some td =>
            match transformValue kv.2 with
            | .ok v' => some (fieldKeyOf td.1, v')
            | .error _ => none)

/-- C1 (counterexample): with source field 5 named "Owner" and target field
12 named "Owner", the claim demands output key "id_12"; the code keeps the
source key "id_5" untouched (it builds no name correspondence at all), and
it also keeps a key whose field is absent from the target definitions
instead of dropping it. -/
theorem prepare_properties_no_key_remap_cex :
    prepare_properties_for_migration (some [("id_5", .num 1)]) =
      .ok (some [("id_5", .num 1)]) ∧
    (claimedFieldMapper [(5, "Owner")] [(12, "Owner")] [("id_5", .num 1)]).map Prod.fst =
      ["id_12"] ∧
    claimedFieldMapper [(5, "Owner")] [] [("id_5", .num 1)] = [] ∧
    (["id_5"] : List String) ≠ ["id_12"] := by
  refine ⟨rfl, rfl, rfl, by decide⟩

/-- C1 (amended): the preparation step performs no key remapping and drops
nothing: for a `None`/empty input it returns `None`, and for non-empty input
the output map has exactly the input's keys, in order (only the values are
transformed). -/
theorem prepare_properties_keys_unchanged :
    prepare_properties_for_migration none = .ok none ∧
    prepare_properties_for_migration (some []) = .ok none ∧
    ∀ m m', prepare_properties_for_migration (some m) = .ok (some m') →
      m'.map Prod.fst = m.map Prod.fst := by
  refine ⟨rfl, rfl, ?_⟩
  intro m m' h
  cases m with
  | nil => simp [prepare_properties_for_migration] at h
  | cons p rest =>
      simp only [prepare_properties_for_migration] at h
      cases h2 : prepareEntries (p :: rest) with
      | error e => rw [h2] at h; cases h
      | ok ys =>
          rw [h2] at h
          cases h
          exact prepareEntries_keys (p :: rest) m' h2

/-- Witness for `prepare_properties_keys_unchanged` at a concrete map. -/
theorem prepare_properties_keys_unchanged_witness :
    prepare_properties_for_migration (some [("id_5", JVal.num 1)]) =
      .ok (some [("id_5", JVal.num 1)]) ∧
    ([("id_5", JVal.num 1)] : List (String × JVal)).map Prod.fst =
      ([("id_5", JVal.num 1)] : List (String × JVal)).map Prod.fst :=
  ⟨rfl, prepare_properties_keys_unchanged.2.2 [("id_5", .num 1)] [("id_5", .num 1)] rfl⟩

/-! ## Claim C8 — the value transformation branch -/

/-- C8 (counterexample): for `[{"id":1}, {"x":2}]` not every element carries
an `id`, so by the claim the value should be copied unchanged; the code
enters the branch anyway (it inspects only the first element) and drops the
id-less element, producing `[1]`. -/
theorem value_transform_not_unchanged_cex :
    transformValue (.arr [.obj [("id", .num 1)], .obj [("x", .num 2)]]) =
      .ok (.arr [.num 1]) ∧
    pyHasId (.obj [("x", .num 2)]) = .ok false ∧
    transformValue (.arr [.obj [("id", .num 1)], .obj [("x", .num 2)]]) ≠
      .ok (.arr [.obj [("id", .num 1)], .obj [("x", .num 2)]]) := by
  refine ⟨rfl, rfl, ?_⟩
  intro h
  rw [show transformValue (.arr [.obj [("id", .num 1)], .obj [("x", .num 2)]]) =
        .ok (.arr [.num 1]) from rfl] at h
  simp at h

/-- C8 (amended): the branch condition inspects only the first element: a
value that is not a non-empty array headed by an id-carrying object is
copied unchanged, and when the head is an id-carrying object and all
elements are objects, the output is the array of the `id` values of exactly
those elements that carry one (id-less elements are dropped). -/
theorem value_transform_first_element_branch :
    (∀ v, branchTaken v = false → transformValue v = .ok v) ∧
    (∀ x l, objWithId x = true → (∀ y ∈ l, isObjV y = true) →
       transformValue (.arr (x :: l)) =
         .ok (.arr ((x :: l).filterMap getIdv))) := by
  constructor
  · exact transformValue_of_not_branch
  · intro x l hx hl
    cases x with
    | obj kvs =>
        have hid : kvs.any (fun kv => kv.1 = "id") = true := by
          simpa [objWithId] using hx
        have hall : ∀ y ∈ (JVal.obj kvs :: l), isObjV y = true := by
          intro y hy
          cases List.mem_cons.mp hy with
          | inl h => subst h; rfl
          | inr h => exact hl y h
        simp [transformValue, hid, extractIds_of_objs _ hall, Except.map]
    | null => simp [objWithId] at hx
    | bool b => simp [objWithId] at hx
    | num n => simp [objWithId] at hx
    | str s => simp [objWithId] at hx
    | arr l2 => simp [objWithId] at hx

/-- Witness for `value_transform_first_element_branch`: the reference-typed
value of the spec's example maps to the bare id array `[1, 2]`. -/
theorem value_transform_first_element_branch_witness :
    transformValue (.arr [.obj [("id", .num 1)], .obj [("id", .num 2), ("n", .str "B")]]) =
      .ok (.arr (([.obj [("id", .num 1)], .obj [("id", .num 2), ("n", .str "B")]] :
        List JVal).filterMap getIdv)) ∧
    (([.obj [("id", .num 1)], .obj [("id", .num 2), ("n", .str "B")]] :
        List JVal).filterMap getIdv) = [.num 1, .num 2] :=
  ⟨value_transform_first_element_branch.2 (.obj [("id", .num 1)])
      [.obj [("id", .num 2), ("n", .str "B")]] (by decide) (by decide),
   rfl⟩

/-! ## Claim C9 — idempotence of the property preparation -/

/-- C9 (counterexample): when an extracted id is itself an id-carrying
object, a second application transforms the value again, so the mapping is
not idempotent. -/
theorem prepare_not_idempotent_cex :
    prepare_properties_for_migration
        (some [("k", .arr [.obj [("id", .obj [("id", .num 5)])]])]) =
      .ok (some [("k", .arr [.obj [("id", .num 5)]])]) ∧
    prepare_properties_for_migration (some [("k", .arr [.obj [("id", .num 5)]])]) =
      .ok (some [("k", .arr [.num 5])]) ∧
    ([("k", JVal.arr [.obj [("id", .num 5)]])] : List (String × JVal)) ≠
      [("k", JVal.arr [.num 5])] := by
  refine ⟨rfl, rfl, ?_⟩
  intro h
  simp at h

/-- C9 (amended): the preparation is idempotent on every input whose first
application yields only branch-stable values — in particular whenever all
extracted ids are scalars: applying it again to its own output returns the
output unchanged. -/
theorem prepare_idempotent_on_stable_values :
    ∀ m m', prepare_properties_for_migration (some m) = .ok (some m') →
      (∀ kv ∈ m', branchTaken kv.2 = false) →
      prepare_properties_for_migration (some m') = .ok (some m') := by
  intro m m' h hst
  cases m with
  | nil => simp [prepare_properties_for_migration] at h
  | cons p rest =>
      simp only [prepare_properties_for_migration] at h
      cases h2 : prepareEntries (p :: rest) with
      | error e => rw [h2] at h; cases h
      | ok ys =>
          rw [h2] at h
          cases h
          have hkeys := prepareEntries_keys (p :: rest) m' h2
          cases m' with
          | nil => simp at hkeys
          | cons y ys' =>
              simp only [prepare_properties_for_migration]
              rw [prepareEntries_of_stable (y :: ys') hst]

/-- Witness for `prepare_idempotent_on_stable_values` at a concrete map
with a scalar extracted id. -/
theorem prepare_idempotent_on_stable_values_witness :
    prepare_properties_for_migration (some [("a", JVal.arr [.num 1])]) =
      .ok (some [("a", JVal.arr [.num 1])]) :=
  prepare_idempotent_on_stable_values [("a", .arr [.obj [("id", .num 1)]])]
    [("a", .arr [.num 1])] rfl (by decide)

/-! ## Claim C2 — card loading is a single unpaginated request -/

/-- C2 (counterexample): even against a source holding 237 cards, the
card-loading step issues exactly one request — not three — and that request
carries no `offset` (and no `limit`) parameter at all, so there is no
offset/limit page loop to speak of. -/
theorem loadCards_not_paginated_cex :
    (loadCards (fun r => if r.offset = none then List.range 237 else []) 1 2 3).2 =
      [⟨1, 2, 3, none, none⟩] ∧
    (loadCards (fun r => if r.offset = none then List.range 237 else []) 1 2 3).2.length = 1 ∧
    (1 : Nat) ≠ 3 := by
  refine ⟨rfl, rfl, by decide⟩

/-- C2 (amended): `main` fetches the card set with a single request carrying
`space_id`, `board_id` and `column_id` and neither `limit` nor `offset`, and
returns that one response as-is; no pagination loop exists. -/
theorem loadCards_single_unpaginated_request :
    ∀ respond s b c,
      loadCards respond s b c = (respond ⟨s, b, c, none, none⟩, [⟨s, b, c, none, none⟩]) ∧
      (loadCards respond s b c).2.length = 1 ∧
      ∀ r ∈ (loadCards respond s b c).2, r.offset = none ∧ r.limit = none := by
  intro respond s b c
  refine ⟨rfl, rfl, ?_⟩
  intro r hr
  cases hr with
  | head => exact ⟨rfl, rfl⟩
  | tail _ h => cases h

/-- Witness for `loadCards_single_unpaginated_request` at a concrete
responder. -/
theorem loadCards_single_unpaginated_request_witness :
    (⟨1, 2, 3, none, none⟩ : CardsRequest) ∈
      (loadCards (fun _ => ([] : List Nat)) 1 2 3).2 ∧
    (⟨1, 2, 3, none, none⟩ : CardsRequest).offset = none ∧
    (⟨1, 2, 3, none, none⟩ : CardsRequest).limit = none :=
  ⟨by decide,
   (loadCards_single_unpaginated_request (fun _ => ([] : List Nat)) 1 2 3).2.2
     ⟨1, 2, 3, none, none⟩ (by decide)⟩

/-! ## Claim C3 — comment text and replay order -/

/-- C3 (counterexample): the migrated comment text contains the author's
display name but no trace of the original creation timestamp, so it is not
"prefixed with both the author's display name and the creation timestamp". -/
theorem comment_text_lacks_timestamp_cex :
    commentMigrationText ⟨some "Alice", "hi", "2024-01-15T10:00:00Z"⟩ =
      "**Комментарий от Alice**\nhi" ∧
    occursIn "2024-01-15T10:00:00Z".toList
      (commentMigrationText ⟨some "Alice", "hi", "2024-01-15T10:00:00Z"⟩).toList = false ∧
    occursIn "Alice".toList
      (commentMigrationText ⟨some "Alice", "hi", "2024-01-15T10:00:00Z"⟩).toList = true := by
  refine ⟨rfl, by decide, by decide⟩

/-- C3 (amended): each target comment's text is the original body prefixed
with the originating author's display name only (no timestamp is added), and
when every creation succeeds the comments are replayed one-for-one in
source-listing order, with no re-sort. -/
theorem comments_author_prefixed_in_order :
    (∀ c, commentMigrationText c =
       "**Комментарий от " ++ c.authorName.getD "Unknown" ++ "**\n" ++ c.text) ∧
    (∀ cardId targetCardId env cs, env.commentsFetch = .ok cs →
       (∀ j, env.commentCreateOk j = true) →
       migrateComments cardId targetCardId env =
         .fetchComments cardId ::
           cs.map (fun c => .createComment targetCardId (commentMigrationText c))) := by
  constructor
  · intro c; rfl
  · intro cardId targetCardId env cs hfetch hok
    have hloop : ∀ (cs' : List Comment) (i : Nat),
        (commentLoop targetCardId env.commentCreateOk i cs').1 =
          cs'.map (fun c => Event.createComment targetCardId (commentMigrationText c)) := by
      intro cs'
      induction cs' with
      | nil => intro i; rfl
      | cons c rest ih =>
          intro i
          simp [commentLoop, hok i, ih (i + 1)]
    simp [migrateComments, hfetch, hloop]

/-- Witness for `comments_author_prefixed_in_order` in a concrete
environment with two comments and no failures. -/
theorem comments_author_prefixed_in_order_witness :
    migrateComments 7 42
        ⟨true, 42, .ok [], fun _ => true,
         .ok [⟨some "Alice", "hi", "t1"⟩, ⟨none, "bye", "t2"⟩], fun _ => true,
         .ok [], fun _ => true, fun _ => true, .ok [], fun _ => true,
         fun _ => 0, fun _ _ => true⟩ =
      [.fetchComments 7,
       .createComment 42 (commentMigrationText ⟨some "Alice", "hi", "t1"⟩),
       .createComment 42 (commentMigrationText ⟨none, "bye", "t2"⟩)] :=
  comments_author_prefixed_in_order.2 7 42 _
    [⟨some "Alice", "hi", "t1"⟩, ⟨none, "bye", "t2"⟩] rfl (fun _ => rfl)

/-! ## Claim C4 — failure isolation granularity -/

/-- Recognizer for file-download attempts in a trace. -/
def isDownloadEv : Event → Bool
  | .downloadFile _ _ => true
  | _ => false

/-- Recognizer for checklist-creation attempts in a trace. -/
def isCreateChecklistEv : Event → Bool
  | .createChecklist _ _ => true
  | _ => false

theorem fileLoop_all_attempted : ∀ (tid : Nat) (dOk uOk : Nat → Bool)
    (fs : List FileInfo) (i : Nat),
    ((fileLoop tid dOk uOk i fs).1.countP isDownloadEv) = fs.length := by
  intro tid dOk uOk fs
  induction fs with
  | nil => intro i; rfl
  | cons f rest ih =>
      intro i
      cases hd : dOk i with
      | true =>
          cases hu : uOk i with
          | true => simp [fileLoop, hd, hu, List.countP_cons, ih (i + 1), isDownloadEv]
          | false => simp [fileLoop, hd, hu, List.countP_cons, ih (i + 1), isDownloadEv]
      | false => simp [fileLoop, hd, List.countP_cons, ih (i + 1), isDownloadEv]

theorem itemLoop_no_checklist_create : ∀ (tid clId : Nat) (ok : Nat → Bool)
    (items : List ChecklistItem) (j : Nat),
    ((itemLoop tid clId ok j items).countP isCreateChecklistEv) = 0 := by
  intro tid clId ok items
  induction items with
  | nil => intro j; rfl
  | cons it rest ih =>
      intro j
      cases h : ok j with
      | true => simp [itemLoop, h, List.countP_cons, ih (j + 1), isCreateChecklistEv]
      | false => simp [itemLoop, h, List.countP_cons, isCreateChecklistEv]

theorem checklistLoop_all_attempted : ∀ (tid : Nat) (clOk : Nat → Bool)
    (newId : Nat → Nat) (itOk : Nat → Nat → Bool) (cls : List Checklist) (i : Nat),
    ((checklistLoop tid clOk newId itOk i cls).countP isCreateChecklistEv) = cls.length := by
  intro tid clOk newId itOk cls
  induction cls with
  | nil => intro i; rfl
  | cons cl rest ih =>
      intro i
      cases h : clOk i with
      | true =>
          simp [checklistLoop, h, List.countP_cons, List.countP_append,
            itemLoop_no_checklist_create, ih (i + 1), isCreateChecklistEv]
      | false => simp [checklistLoop, h, List.countP_cons, ih (i + 1), isCreateChecklistEv]

theorem commentLoop_stops_at_failure : ∀ (tid : Nat) (ok : Nat → Bool)
    (cs : List Comment) (i k : Nat),
    k < cs.length → ok (i + k) = false → (∀ j, j < k → ok (i + j) = true) →
    (commentLoop tid ok i cs).1.length = k + 1 := by
  intro tid ok cs
  induction cs with
  | nil => intro i k hk _ _; exact absurd hk (by simp)
  | cons c rest ih =>
      intro i k hk hf hok
      cases k with
      | zero =>
          have h0 : ok i = false := by simpa using hf
          simp [commentLoop, h0]
      | succ k' =>
          have h0 : ok i = true := by simpa using hok 0 (Nat.succ_pos k')
          have hf' : ok (i + 1 + k') = false := by
            rw [show i + 1 + k' = i + (k' + 1) by omega]; exact hf
          have hok' : ∀ j, j < k' → ok (i + 1 + j) = true := by
            intro j hj
            rw [show i + 1 + j = i + (j + 1) by omega]
            exact hok (j + 1) (by omega)
          have hk' : k' < rest.length := by simpa using Nat.lt_of_succ_lt_succ hk
          simp [commentLoop, h0, ih (i + 1) k' hk' hf' hok']

theorem fetchFiles_mem : ∀ (cid tid : Nat) (env : CardEnv),
    Event.fetchFiles cid ∈ (migrate_card_files cid tid env).1 := by
  intro cid tid env
  cases hf : env.filesFetch with
  | error e => simp [migrate_card_files, hf]
  | ok fs => simp [migrate_card_files, hf]

theorem fetchCard_mem : ∀ (cid tid : Nat) (env : CardEnv),
    Event.fetchCard cid ∈ migrate_card_checklists cid tid env := by
  intro cid tid env
  cases hf : env.checklistsFetch with
  | error e => simp [migrate_card_checklists, hf]
  | ok cls => simp [migrate_card_checklists, hf]

/-- Environment in which the second comment creation fails and every other
operation succeeds; the source card has three comments. -/
def env4 : CardEnv :=
  ⟨true, 42, .ok [], fun _ => true,
   .ok [⟨some "A", "one", "t1"⟩, ⟨some "B", "two", "t2"⟩, ⟨some "C", "three", "t3"⟩],
   fun i => decide (i ≠ 1),
   .ok [], fun _ => true, fun _ => true, .ok [], fun _ => true, fun _ => 0,
   fun _ _ => true⟩

/-- C4 (counterexample): with three source comments and a failure on
comment #2, the comment loop attempts #1 and #2 and never attempts #3 — a
failure on one comment is caught at the category level, not the item
level. -/
theorem comment_failure_aborts_category_cex :
    env4.commentsFetch = .ok [⟨some "A", "one", "t1"⟩, ⟨some "B", "two", "t2"⟩,
      ⟨some "C", "three", "t3"⟩] ∧
    migrateComments 7 42 env4 =
      [.fetchComments 7,
       .createComment 42 (commentMigrationText ⟨some "A", "one", "t1"⟩),
       .createComment 42 (commentMigrationText ⟨some "B", "two", "t2"⟩)] ∧
    Event.createComment 42 (commentMigrationText ⟨some "C", "three", "t3"⟩) ∉
      migrateComments 7 42 env4 := by
  refine ⟨rfl, rfl, by decide⟩

/-- C4 (amended): item-level failure isolation holds for files and
checklists (every item is attempted no matter which earlier items failed);
for comments (and likewise tags) isolation is only category-level: the loop
stops right after the first failing item. A category's failure still never
prevents the later categories — after any comment/tag outcome, the file
fetch and the checklist fetch of the same entity are still issued. -/
theorem failure_isolation_granularity :
    (∀ tid dOk uOk fs i, ((fileLoop tid dOk uOk i fs).1.countP isDownloadEv) = fs.length) ∧
    (∀ tid clOk newId itOk cls i,
       ((checklistLoop tid clOk newId itOk i cls).countP isCreateChecklistEv) = cls.length) ∧
    (∀ tid ok (cs : List Comment) k, k < cs.length → ok k = false →
       (∀ j, j < k → ok j = true) → (commentLoop tid ok 0 cs).1.length = k + 1) ∧
    (∀ (card : Card) (env : CardEnv),
       exceptOk (prepare_properties_for_migration card.properties) = true →
       env.createOk = true →
       Event.fetchFiles card.id ∈ (migrateOneCard card env).events ∧
       Event.fetchCard card.id ∈ (migrateOneCard card env).events) := by
  refine ⟨fileLoop_all_attempted, checklistLoop_all_attempted, ?_, ?_⟩
  · intro tid ok cs k hk hf hok
    exact commentLoop_stops_at_failure tid ok cs 0 k hk (by simpa using hf)
      (fun j hj => by simpa using hok j hj)
  · intro card env hprep hc
    cases hp : prepare_properties_for_migration card.properties with
    | error e => rw [hp] at hprep; simp [exceptOk] at hprep
    | ok v =>
        have h1 := fetchFiles_mem card.id env.newCardId env
        have h2 := fetchCard_mem card.id env.newCardId env
        constructor
        · simp only [migrateOneCard, hp, hc, if_true]
          exact List.mem_cons_of_mem _
            (List.mem_append_left _ (List.mem_append_right _ h1))
        · simp only [migrateOneCard, hp, hc, if_true]
          exact List.mem_cons_of_mem _ (List.mem_append_right _ h2)

/-- Card used to witness `failure_isolation_granularity`. -/
def card4 : Card := ⟨7, "w", none, none⟩

/-- Witness for `failure_isolation_granularity`: with a failure on comment
#2 of 3 only two comment creations happen, yet the file and checklist
categories of the same card still run. -/
theorem failure_isolation_granularity_witness :
    (commentLoop 9 (fun i => decide (i ≠ 1)) 0
        [⟨some "A", "a", "t"⟩, ⟨some "B", "b", "t"⟩, ⟨some "C", "c", "t"⟩]).1.length = 2 ∧
    Event.fetchFiles 7 ∈ (migrateOneCard card4 env4).events ∧
    Event.fetchCard 7 ∈ (migrateOneCard card4 env4).events := by
  refine ⟨?_, ?_, ?_⟩
  · exact failure_isolation_granularity.2.2.1 9 (fun i => decide (i ≠ 1)) _ 1
      (by decide) (by decide) (by decide)
  · exact (failure_isolation_granularity.2.2.2 card4 env4 rfl rfl).1
  · exact (failure_isolation_granularity.2.2.2 card4 env4 rfl rfl).2

/-! ## Claim C5 — the success tally counts exactly the successful creations -/

theorem migrateOneCard_created (c : Card) (env : CardEnv)
    (hprep : exceptOk (prepare_properties_for_migration c.properties) = true) :
    (migrateOneCard c env).created = env.createOk := by
  cases hp : prepare_properties_for_migration c.properties with
  | error e => rw [hp] at hprep; simp [exceptOk] at hprep
  | ok v =>
      cases hc : env.createOk with
      | true => simp [migrateOneCard, hp, hc]
      | false => simp [migrateOneCard, hp, hc]

theorem runCards_count (envs : Nat → CardEnv) (total : Nat) :
    ∀ (cs : List Card) (i),
      (∀ c ∈ cs, exceptOk (prepare_properties_for_migration c.properties) = true) →
      (runCards envs total i cs).1 = countCreated envs i cs := by
  intro cs
  induction cs with
  | nil => intro i _; rfl
  | cons c rest ih =>
      intro i h
      have hc := migrateOneCard_created c (envs i) (h c (List.mem_cons_self _ _))
      have hr := ih (i + 1) (fun c' hm => h c' (List.mem_cons_of_mem _ hm))
      cases hco : (envs i).createOk with
      | true => simp [runCards, countCreated, hc, hco, hr]; omega
      | false => simp [runCards, countCreated, hc, hco, hr]

/-- C5: `migrate_cards` returns `(successCount, N)` where the success count
is exactly the number of entities whose target-creation call succeeded
(`countCreated` reads nothing but the per-entity `createOk`, so the tally is
independent of every sub-resource outcome, and later entities are still
counted after an earlier failure); when creation fails for an entity, its
outcome is a single creation attempt — no sub-resource migrator runs — and
it is not counted. -/
theorem success_tally_counts_creations :
    (∀ cards envs,
       (∀ c ∈ cards, exceptOk (prepare_properties_for_migration c.properties) = true) →
       (migrate_cards cards envs).1 = (countCreated envs 0 cards, cards.length)) ∧
    (∀ (c : Card) (env : CardEnv),
       exceptOk (prepare_properties_for_migration c.properties) = true →
       env.createOk = false →
       migrateOneCard c env = ⟨[.createCard c.title], false, []⟩) := by
  constructor
  · intro cards envs h
    simp only [migrate_cards]
    rw [runCards_count envs cards.length cards 0 h]
  · intro c env hprep hc
    cases hp : prepare_properties_for_migration c.properties with
    | error e => rw [hp] at hprep; simp [exceptOk] at hprep
    | ok v => simp [migrateOneCard, hp, hc]

/-- Environment whose creation call succeeds, with no sub-resources. -/
def envOk5 : CardEnv :=
  ⟨true, 100, .ok [], fun _ => true, .ok [], fun _ => true, .ok [], fun _ => true,
   fun _ => true, .ok [], fun _ => true, fun _ => 0, fun _ _ => true⟩

/-- Environment whose creation call fails. -/
def envFail5 : CardEnv :=
  ⟨false, 100, .ok [], fun _ => true, .ok [], fun _ => true, .ok [], fun _ => true,
   fun _ => true, .ok [], fun _ => true, fun _ => 0, fun _ _ => true⟩

/-- Five selected cards. -/
def cards5 : List Card :=
  [⟨1, "c1", none, none⟩, ⟨2, "c2", none, none⟩, ⟨3, "c3", none, none⟩,
   ⟨4, "c4", none, none⟩, ⟨5, "c5", none, none⟩]

/-- Per-card environments where creation fails exactly for card #3. -/
def envs5 : Nat → CardEnv := fun i => if i = 2 then envFail5 else envOk5

/-- Witness for `success_tally_counts_creations`: 5 entities, creation of
entity #3 fails — the run returns `(4, 5)` and entity #3 gets no
sub-resource attempt. -/
theorem success_tally_counts_creations_witness :
    (migrate_cards cards5 envs5).1 = (4, 5) ∧
    (migrateOneCard ⟨3, "c3", none, none⟩ envFail5).events = [.createCard "c3"] := by
  constructor
  · rw [success_tally_counts_creations.1 cards5 envs5 (by decide)]
    rfl
  · rw [success_tally_counts_creations.2 ⟨3, "c3", none, none⟩ envFail5 rfl rfl]

/-! ## Claim C6 — progress reporting -/

theorem runCards_progress (envs : Nat → CardEnv) (n : Nat) :
    ∀ (cs : List Card) (i), i + cs.length ≤ n →
      List.Chain' (· ≤ ·) (runCards envs n i cs).2.1 ∧
      (∀ q ∈ (runCards envs n i cs).2.1,
         ((i : ℚ) + 1) / (n : ℚ) ≤ q ∧ 0 ≤ q ∧ q ≤ 1) ∧
      (runCards envs n i cs).2.1.length = (runCards envs n i cs).1 := by
  intro cs
  induction cs with
  | nil => intro i _; exact ⟨List.chain'_nil, by simp [runCards], by simp [runCards]⟩
  | cons c rest ih =>
      intro i hn
      have hn' : (i + 1) + rest.length ≤ n := by
        simp only [List.length_cons] at hn; omega
      obtain ⟨ihc, ihb, ihl⟩ := ih (i + 1) hn'
      have hnpos : 0 < n := by simp only [List.length_cons] at hn; omega
      have hcast : (0 : ℚ) < (n : ℚ) := by exact_mod_cast hnpos
      have hstep : ((i : ℚ) + 1) / (n : ℚ) ≤ (((i + 1 : ℕ) : ℚ) + 1) / (n : ℚ) := by
        apply (div_le_div_iff_of_pos_right hcast).mpr
        push_cast
        linarith
      cases hco : (migrateOneCard c (envs i)).created with
      | false =>
          have hrw : runCards envs n i (c :: rest) =
              ((runCards envs n (i + 1) rest).1,
               (runCards envs n (i + 1) rest).2.1,
               (migrateOneCard c (envs i)).events ++ (runCards envs n (i + 1) rest).2.2) := by
            simp [runCards, hco]
          rw [hrw]
          refine ⟨ihc, ?_, ihl⟩
          intro q hq
          obtain ⟨hlb, h0, h1⟩ := ihb q hq
          exact ⟨le_trans hstep hlb, h0, h1⟩
      | true =>
          have hrw : runCards envs n i (c :: rest) =
              ((runCards envs n (i + 1) rest).1 + 1,
               ((i + 1 : ℚ) / (n : ℚ)) :: (runCards envs n (i + 1) rest).2.1,
               (migrateOneCard c (envs i)).events ++ (runCards envs n (i + 1) rest).2.2) := by
            simp [runCards, hco]
          rw [hrw]
          have hbound : ((i : ℚ) + 1) / (n : ℚ) ≤ 1 := by
            rw [div_le_one hcast]
            have hin : (i + 1 : ℕ) ≤ n := by simp only [List.length_cons] at hn; omega
            exact_mod_cast hin
          have hnn : (0 : ℚ) ≤ ((i : ℚ) + 1) / (n : ℚ) :=
            div_nonneg (by positivity) (le_of_lt hcast)
          refine ⟨?_, ?_, ?_⟩
          · rw [List.chain'_cons']
            refine ⟨?_, ihc⟩
            intro y hy
            have hmem : y ∈ (runCards envs n (i + 1) rest).2.1 := List.mem_of_mem_head? hy
            exact le_trans hstep (ihb y hmem).1
          · intro q hq
            cases List.mem_cons.mp hq with
            | inl h => subst h; exact ⟨le_refl _, hnn, hbound⟩
            | inr h =>
                obtain ⟨hlb, h0, h1⟩ := ihb q h
                exact ⟨le_trans hstep hlb, h0, h1⟩
          · simp [ihl]

/-- C6 (amended): the progress fraction is advanced only after successfully
created entities (the number of updates equals the success count, not the
entity count), each update is `(i + 1) / totalCount`, and the emitted
sequence is monotonically non-decreasing with every value in `[0, 1]`; it
reaches 1 only when the final entity's creation succeeded. -/
theorem progress_monotone_bounded :
    ∀ cards envs,
      List.Chain' (· ≤ ·) (migrate_cards cards envs).2.1 ∧
      (∀ q ∈ (migrate_cards cards envs).2.1, 0 ≤ q ∧ q ≤ 1) ∧
      (migrate_cards cards envs).2.1.length = (migrate_cards cards envs).1.1 := by
  intro cards envs
  obtain ⟨hc, hb, hl⟩ := runCards_progress envs cards.length cards 0 (by omega)
  exact ⟨hc, fun q hq => ⟨(hb q hq).2.1, (hb q hq).2.2⟩, hl⟩

/-- Creation-failing environment used for the C6 scenario. -/
def envFail6 : CardEnv :=
  ⟨false, 100, .ok [], fun _ => true, .ok [], fun _ => true, .ok [], fun _ => true,
   fun _ => true, .ok [], fun _ => true, fun _ => 0, fun _ _ => true⟩

/-- Creation-succeeding environment used for the C6 scenario. -/
def envOk6 : CardEnv :=
  ⟨true, 100, .ok [], fun _ => true, .ok [], fun _ => true, .ok [], fun _ => true,
   fun _ => true, .ok [], fun _ => true, fun _ => 0, fun _ _ => true⟩

/-- C6 (counterexample): a run over one card whose creation fails emits no
progress update at all — the bar is not advanced to `1/1` after the failed
entity, and the run ends with the progress never reaching 1. -/
theorem progress_skipped_on_create_failure_cex :
    (migrate_cards [⟨9, "f", none, none⟩] (fun _ => envFail6)).2.1 = [] ∧
    (migrate_cards [⟨9, "f", none, none⟩] (fun _ => envFail6)).1 = (0, 1) ∧
    ([] : List ℚ) ≠ [1] := by
  refine ⟨rfl, rfl, by decide⟩

/-- Two cards, the first created successfully, the second failing. -/
def cardsW6 : List Card := [⟨1, "a", none, none⟩, ⟨2, "b", none, none⟩]

/-- Environments for `cardsW6`: success at index 0, failure afterwards. -/
def envsW6 : Nat → CardEnv := fun i => if i = 0 then envOk6 else envFail6

/-- Witness for `progress_monotone_bounded`: the single emitted update
`1/2` lies in `[0, 1]` and the emitted sequence is a ≤-chain. -/
theorem progress_monotone_bounded_witness :
    List.Chain' (· ≤ ·) (migrate_cards cardsW6 envsW6).2.1 ∧
    (0 ≤ (1 : ℚ) / 2 ∧ (1 : ℚ) / 2 ≤ 1) :=
  ⟨(progress_monotone_bounded cardsW6 envsW6).1,
   (progress_monotone_bounded cardsW6 envsW6).2.1 ((1 : ℚ) / 2) (by
     have h : (migrate_cards cardsW6 envsW6).2.1 =
         [(((0 : ℕ) : ℚ) + 1) / ((2 : ℕ) : ℚ)] := rfl
     rw [h, List.mem_singleton]
     norm_num)⟩

/-! ## Claim C7 — temporary-file lifecycle during file migration -/

/-- C7 (amended, part proof): on the all-success path every file produces
the download/upload/delete triple and no temporary file survives; in
general the surviving temporary files are exactly those whose download
succeeded and whose upload failed — the failure path does not delete the
local copy (it lingers until the instance's teardown cleanup). -/
theorem temp_file_cleanup_behaviour :
    (∀ (tid : Nat) (fs : List FileInfo) (i : Nat),
       fileLoop tid (fun _ => true) (fun _ => true) i fs =
         (fs.flatMap (fun f => [.downloadFile f.url f.name, .uploadFile tid f.name,
            .removeTemp f.name]), [])) ∧
    (∀ (tid : Nat) (dOk uOk : Nat → Bool) (fs : List FileInfo) (i : Nat),
       (fileLoop tid dOk uOk i fs).2 =
         ((List.enumFrom i fs).filter (fun p => dOk p.1 && !uOk p.1)).map
           (fun p => p.2.name)) := by
  constructor
  · intro tid fs
    induction fs with
    | nil => intro i; rfl
    | cons f rest ih => intro i; simp [fileLoop, ih (i + 1)]
  · intro tid dOk uOk fs
    induction fs with
    | nil => intro i; rfl
    | cons f rest ih =>
        intro i
        cases hd : dOk i with
        | true =>
            cases hu : uOk i with
            | true => simp [fileLoop, List.enumFrom, hd, hu, ih (i + 1)]
            | false => simp [fileLoop, List.enumFrom, hd, hu, ih (i + 1)]
        | false => simp [fileLoop, List.enumFrom, hd, ih (i + 1)]

/-- Environment with one source file whose upload fails. -/
def envU7 : CardEnv :=
  ⟨true, 42, .ok [], fun _ => true, .ok [], fun _ => true,
   .ok [⟨"srcurl", "a.txt"⟩], fun _ => true, fun _ => false, .ok [], fun _ => true,
   fun _ => 0, fun _ _ => true⟩

/-- C7 (counterexample): when the upload of a downloaded file fails, no
`os.remove` happens — the trace has no delete action and the local copy
stays behind in the temporary directory, contradicting "deletes the local
copy ... on both the success path and the failure path". -/
theorem temp_file_kept_on_upload_failure_cex :
    migrate_card_files 7 42 envU7 =
      ([.fetchFiles 7, .downloadFile "srcurl" "a.txt", .uploadFile 42 "a.txt"],
       ["a.txt"]) ∧
    Event.removeTemp "a.txt" ∉ (migrate_card_files 7 42 envU7).1 := by
  refine ⟨rfl, by decide⟩

/-! ## Claim C10 — tag migration is guarded by the cached tags field -/

/-- Recognizer for tag-related API interactions. -/
def isTagEvent : Event → Bool
  | .fetchTags _ => true
  | .createTag _ _ _ => true
  | _ => false

theorem commentLoop_no_tag : ∀ (tid : Nat) (ok : Nat → Bool) (cs : List Comment) (i : Nat),
    ((commentLoop tid ok i cs).1.filter isTagEvent) = [] := by
  intro tid ok cs
  induction cs with
  | nil => intro i; rfl
  | cons c rest ih =>
      intro i
      cases h : ok i with
      | true => simp [commentLoop, h, ih (i + 1), isTagEvent]
      | false => simp [commentLoop, h, isTagEvent]

theorem migrateComments_no_tag : ∀ (cid tid : Nat) (env : CardEnv),
    ((migrateComments cid tid env).filter isTagEvent) = [] := by
  intro cid tid env
  cases h : env.commentsFetch with
  | error e => simp [migrateComments, h, isTagEvent]
  | ok cs => simp [migrateComments, h, isTagEvent, commentLoop_no_tag]

theorem fileLoop_no_tag : ∀ (tid : Nat) (dOk uOk : Nat → Bool) (fs : List FileInfo) (i : Nat),
    ((fileLoop tid dOk uOk i fs).1.filter isTagEvent) = [] := by
  intro tid dOk uOk fs
  induction fs with
  | nil => intro i; rfl
  | cons f rest ih =>
      intro i
      cases hd : dOk i with
      | true =>
          cases hu : uOk i with
          | true => simp [fileLoop, hd, hu, ih (i + 1), isTagEvent]
          | false => simp [fileLoop, hd, hu, ih (i + 1), isTagEvent]
      | false => simp [fileLoop, hd, ih (i + 1), isTagEvent]

theorem migrate_card_files_no_tag : ∀ (cid tid : Nat) (env : CardEnv),
    (((migrate_card_files cid tid env).1).filter isTagEvent) = [] := by
  intro cid tid env
  cases h : env.filesFetch with
  | error e => simp [migrate_card_files, h, isTagEvent]
  | ok fs => simp [migrate_card_files, h, isTagEvent, fileLoop_no_tag]

theorem itemLoop_no_tag : ∀ (tid clId : Nat) (ok : Nat → Bool)
    (items : List ChecklistItem) (j : Nat),
    ((itemLoop tid clId ok j items).filter isTagEvent) = [] := by
  intro tid clId ok items
  induction items with
  | nil => intro j; rfl
  | cons it rest ih =>
      intro j
      cases h : ok j with
      | true => simp [itemLoop, h, ih (j + 1), isTagEvent]
      | false => simp [itemLoop, h, isTagEvent]

theorem checklistLoop_no_tag : ∀ (tid : Nat) (clOk : Nat → Bool) (newId : Nat → Nat)
    (itOk : Nat → Nat → Bool) (cls : List Checklist) (i : Nat),
    ((checklistLoop tid clOk newId itOk i cls).filter isTagEvent) = [] := by
  intro tid clOk newId itOk cls
  induction cls with
  | nil => intro i; rfl
  | cons cl rest ih =>
      intro i
      cases h : clOk i with
      | true =>
          simp [checklistLoop, h, List.filter_append, itemLoop_no_tag,
            ih (i + 1), isTagEvent]
      | false => simp [checklistLoop, h, ih (i + 1), isTagEvent]

theorem migrate_card_checklists_no_tag : ∀ (cid tid : Nat) (env : CardEnv),
    ((migrate_card_checklists cid tid env).filter isTagEvent) = [] := by
  intro cid tid env
  cases h : env.checklistsFetch with
  | error e => simp [migrate_card_checklists, h, isTagEvent]
  | ok cls => simp [migrate_card_checklists, h, isTagEvent, checklistLoop_no_tag]

/-- C10: when the cached card object carries no (or an empty) `tags` list,
the tag block is skipped entirely — the per-card tag endpoint is never
queried and no tag creation is issued, whatever the source would answer —
and the tag fetch is issued exactly when the cached list is non-empty. -/
theorem tags_skipped_when_cached_tags_empty :
    (∀ (card : Card) (tid : Nat) (env : CardEnv), truthyTags card.tags = false →
       migrateTags card tid env = []) ∧
    (∀ (card : Card) (env : CardEnv), truthyTags card.tags = false →
       ((migrateOneCard card env).events.filter isTagEvent) = []) ∧
    (∀ (card : Card) (tid : Nat) (env : CardEnv), truthyTags card.tags = true →
       Event.fetchTags card.id ∈ migrateTags card tid env) := by
  refine ⟨?_, ?_, ?_⟩
  · intro card tid env h
    simp [migrateTags, h]
  · intro card env h
    cases hp : prepare_properties_for_migration card.properties with
    | error e => simp [migrateOneCard, hp]
    | ok v =>
        cases hc : env.createOk with
        | false => simp [migrateOneCard, hp, hc, isTagEvent]
        | true =>
            simp [migrateOneCard, hp, hc, isTagEvent, List.filter_append,
              migrateTags, h, migrateComments_no_tag, migrate_card_files_no_tag,
              migrate_card_checklists_no_tag]
  · intro card tid env h
    cases ht : env.tagsFetch with
    | error e => simp [migrateTags, h, ht]
    | ok tags => simp [migrateTags, h, ht]

/-- A card whose cached `tags` list is empty. -/
def cardT10 : Card := ⟨7, "t", some [], none⟩

/-- Environment whose source would answer the tag listing with one tag. -/
def envT10 : CardEnv :=
  ⟨true, 42, .ok [⟨"urgent", "red"⟩], fun _ => true, .ok [], fun _ => true,
   .ok [], fun _ => true, fun _ => true, .ok [], fun _ => true, fun _ => 0,
   fun _ _ => true⟩

/-- Witness for `tags_skipped_when_cached_tags_empty`: the source does hold
a tag, yet the migrated card's trace has no tag interaction at all. -/
theorem tags_skipped_when_cached_tags_empty_witness :
    envT10.tagsFetch = .ok [⟨"urgent", "red"⟩] ∧
    ((migrateOneCard cardT10 envT10).events.filter isTagEvent) = [] :=
  ⟨rfl, tags_skipped_when_cached_tags_empty.2.1 cardT10 envT10 rfl⟩
